import Mathlib

/-!
Shallow embedding of the tisese-inference-api pipeline
(`app/dependencies.py`, `app/routers/inference.py`, `app/main.py`).

The pipeline has three stages: `run_inference` (outbound call to the
Ultralytics detection API plus bounding-box annotation of the uploaded
image), `SupabaseClient` (storage client construction), and
`save_to_supabase_storage` (upload of the annotated bytes and public-URL
retrieval).  The FastAPI route `postInference` is wired with
`Depends(run_inference)` only.

External libraries (`requests`, `cv2`, `supabase`) are modelled at their
interface: an HTTP response is a status/reason/text triple with an
optional parsed JSON body, the image codec is a concrete serialization
that records the raster, and the storage client records the upload call.
Python `float` literals (`0.25`, `0.45`) are modelled as exact decimal
constants, and Python `int()` on a JSON number as integer division
truncating toward zero (`Int.tdiv`), which is what `int()` does on the
corresponding real value.  Exception message texts coming from inside
the external libraries are modelled by fixed strings; message texts
written literally in `dependencies.py` are kept verbatim.
-/

namespace Tisese

/-- Byte strings are lists of naturals. -/
abbrev Bytes := List Nat

/-- Process environment: the six variables read via `os.getenv`.
`none` models an unset variable. -/
structure Env where
  ultralyticsApiKey : Option String
  ultralyticsModelUrl : Option String
  ultralyticsInferenceUrl : Option String
  supabaseUrl : Option String
  supabaseKey : Option String
  supabaseStorageBucket : Option String
deriving DecidableEq, Repr

/-- Python truthiness of an environment value: `None` and the empty
string are falsy (this is what `all([...])` and `if not bucket_name`
test). -/
def present : Option String → Bool
  | none => false
  | some s => s != ""

/-- The uploaded multipart file: bytes, original filename, declared
content type (`fastapi.UploadFile`). -/
structure UploadFile where
  filename : String
  contentType : String
  content : Bytes
deriving DecidableEq, Repr

/-- Exact decimal constant standing for a Python numeric literal
(value `mantissa / divisor`). -/
structure Decimal where
  mantissa : Int
  divisor : Nat
deriving DecidableEq, Repr

/-- JSON values as parsed by `response.json()`.  Numbers carry an exact
numerator/denominator pair. -/
inductive Json where
  | null
  | bool (b : Bool)
  | num (n : Int) (d : Nat)
  | str (s : String)
  | arr (elems : List Json)
  | obj (fields : List (String × Json))

/-- Python truthiness of a JSON value (`if not result.get("images")`,
`if not box`, ...). -/
def pyTruthy : Json → Bool
  | .null => false
  | .bool b => b
  | .num n _ => n != 0
  | .str s => s != ""
  | .arr xs => !xs.isEmpty
  | .obj fs => !fs.isEmpty

/-- Python `int()` applied to a JSON value: truncation toward zero for
numbers, 0/1 for booleans, a `TypeError` (here `none`) otherwise.
(The numeric-string form of `int()` never arises from this API's
responses and is not modelled.) -/
def pyIntOfJson : Json → Option Int
  | .num n d => some (Int.tdiv n (Int.ofNat d))
  | .bool b => some (if b then 1 else 0)
  | _ => none

/-- Python `k in box` for a JSON value: membership for objects, element
equality for arrays, substring for strings, `TypeError` (`none`)
otherwise. -/
def listContainsSub (pat : List Char) : List Char → Bool
  | [] => pat.isEmpty
  | c :: cs => (pat.isPrefixOf (c :: cs)) || listContainsSub pat cs

/-- Substring test on strings, used both for Python `in` on strings and
to state facts about error-detail texts. -/
def strHasSub (s pat : String) : Bool := listContainsSub pat.data s.data

def pyContains (j : Json) (k : String) : Option Bool :=
  match j with
  | .obj fs => some (fs.any (fun p => p.1 == k))
  | .arr xs => some (xs.any (fun v => match v with | .str s => s == k | _ => false))
  | .str s => some (strHasSub s k)
  | _ => none

/-- Python `all(k in box for k in keys)`: short-circuits at the first
missing key, propagates a `TypeError` (`none`) met before that. -/
def containsAllKeys (j : Json) : List String → Option Bool
  | [] => some true
  | k :: ks =>
    match pyContains j k with
    | none => none
    | some false => some false
    | some true => containsAllKeys j ks

mutual

/-- JSON serialization (`json.dumps`), used when attaching an upstream
error body to a detail message. -/
def jsonDumps : Json → String
  | .null => "null"
  | .bool b => if b then "true" else "false"
  | .num n d => toString n ++ "/" ++ toString d
  | .str s => "\"" ++ s ++ "\""
  | .arr xs => "[" ++ jsonDumpsList xs ++ "]"
  | .obj fs => "\x7b" ++ jsonDumpsFields fs ++ "\x7d"

def jsonDumpsList : List Json → String
  | [] => ""
  | [x] => jsonDumps x
  | x :: xs => jsonDumps x ++ ", " ++ jsonDumpsList xs

def jsonDumpsFields : List (String × Json) → String
  | [] => ""
  | [(k, v)] => "\"" ++ k ++ "\": " ++ jsonDumps v
  | (k, v) :: fs => "\"" ++ k ++ "\": " ++ jsonDumps v ++ ", " ++ jsonDumpsFields fs

end

/-- A pixel, as OpenCV stores it: a blue/green/red triple. -/
abbrev Pixel := Nat × Nat × Nat

/-- The fixed rectangle color `(0, 255, 0)` (green in BGR). -/
def greenBGR : Pixel := (0, 255, 0)

/-- A decoded raster image: a list of rows of pixels. -/
structure Image where
  data : List (List Pixel)
deriving DecidableEq, Repr

def Image.height (img : Image) : Nat := img.data.length

def Image.width (img : Image) : Nat :=
  match img.data with
  | [] => 0
  | row :: _ => row.length

/-- Indexed map with a definitional cons equation, used by the rectangle
drawing model. -/
def mapWithIndex (f : Nat → α → β) : List α → List β
  | [] => []
  | a :: as => f 0 a :: mapWithIndex (fun i x => f (i + 1) x) as

/-- Whether pixel column `c`, row `r` lies on the two-pixel-wide border
band of the rectangle with corners `(x1, y1)` and `(x2, y2)`.  Modelled
from `cv2.rectangle`: a pure recoloring rule; out-of-range coordinates
recolor nothing outside the raster because only existing pixels are
visited. -/
def onBorder (x1 y1 x2 y2 : Int) (c r : Int) : Bool :=
  let xlo := min x1 x2
  let xhi := max x1 x2
  let ylo := min y1 y2
  let yhi := max y1 y2
  (xlo - 1 ≤ c && c ≤ xhi + 1 && ylo - 1 ≤ r && r ≤ yhi + 1) &&
    ((c - xlo).natAbs ≤ 1 || (c - xhi).natAbs ≤ 1 ||
     (r - ylo).natAbs ≤ 1 || (r - yhi).natAbs ≤ 1)

/-- Modelled `cv2.rectangle(image, (x1, y1), (x2, y2), (0, 255, 0), 2)`:
recolors the border-band pixels green in place; the raster shape is
untouched. -/
def drawRect (img : Image) (x1 y1 x2 y2 : Int) : Image :=
  ⟨mapWithIndex (fun r row =>
      mapWithIndex (fun c px =>
        if onBorder x1 y1 x2 y2 (Int.ofNat c) (Int.ofNat r) then greenBGR else px) row)
    img.data⟩

/-- Modelled `cv2.imencode(".jpg", image)`: a byte serialization of the
raster that records height, width and the pixel codes. -/
def jpegEncode (img : Image) : Bytes :=
  img.height :: img.width ::
    (img.data.flatten.map fun p => p.1 * 65536 + p.2.1 * 256 + p.2.2)

/-- Height recorded in an encoded stream. -/
def jpegHeight (bs : Bytes) : Nat := bs.headD 0

/-- Width recorded in an encoded stream. -/
def jpegWidth (bs : Bytes) : Nat := (bs.drop 1).headD 0

def pixelOfCode (c : Nat) : Pixel := (c / 65536, c / 256 % 256, c % 256)

/-- Rows of width `w`, `h` of them, cut from a flat pixel list. -/
def rowsOf (w : Nat) : Nat → List Pixel → List (List Pixel)
  | 0, _ => []
  | h + 1, l => l.take w :: rowsOf w h (l.drop w)

/-- Modelled `cv2.imread` on the temporary file holding the uploaded
bytes: decodes a well-formed stream (height, width, then exactly
`h * w` pixel codes, both dimensions positive) and fails (`None`)
otherwise. -/
def decodeImage : Bytes → Option Image
  | h :: w :: rest =>
    if 0 < h && 0 < w && rest.length == h * w then
      some ⟨rowsOf w h (rest.map pixelOfCode)⟩
    else
      none
  | _ => none

/-- An HTTP response as `requests` exposes it: status code, reason
phrase, raw text, and the result of `response.json()` when the body
parses (`none` models a `json.JSONDecodeError`). -/
structure HttpResponse where
  status : Nat
  reason : String
  text : String
  jsonBody : Option Json

/-- Outcome of the single outbound `requests.post`: either a transport
failure (a `RequestException` with no response attached, message
`msg`) or a response. -/
inductive NetOutcome where
  | transportFailure (msg : String)
  | gotResponse (r : HttpResponse)

/-- The outbound inference request exactly as `run_inference` builds
it: URL, `x-api-key` header, the four form fields, and the file part
under the original filename and content type. -/
structure InferenceRequest where
  url : String
  apiKeyHeader : String
  modelField : String
  imgszField : Nat
  confField : Decimal
  iouField : Decimal
  fileName : String
  fileBytes : Bytes
  contentType : String
deriving DecidableEq, Repr

/-- Observable side effects of a pipeline run, in order. -/
inductive Effect where
  | netPost (req : InferenceRequest)
  | tempCreate
  | tempDelete
  | storageUpload (bucket : String) (path : String) (bytes : Bytes)
      (options : List (String × String))
deriving DecidableEq, Repr

def Effect.isNetPost : Effect → Bool
  | .netPost _ => true
  | _ => false

def Effect.isStorageUpload : Effect → Bool
  | .storageUpload _ _ _ _ => true
  | _ => false

/-- Every pipeline failure is a `fastapi.HTTPException`: a status code
and a detail string. -/
structure PipelineError where
  status : Nat
  detail : String
deriving DecidableEq, Repr

/-- The successful `run_inference` value: a dict with exactly the keys
`original_file`, `image_bytes` and `filename`. -/
structure InferenceResult where
  original_file : UploadFile
  image_bytes : Bytes
  filename : String
deriving DecidableEq, Repr

/-- Truthiness of a `requests.Response`: `Response.__bool__` is
`Response.ok`, i.e. status below 400. -/
def respTruthy (r : HttpResponse) : Bool := r.status < 400

/-- The message `raise_for_status` puts in its `HTTPError` (which is
also `str(e)` in the handler). -/
def httpErrorString (status : Nat) (reason : String) (url : String) : String :=
  toString status ++
    (if status < 500 then " Client Error: " else " Server Error: ") ++
    reason ++ " for url: " ++ url

/-- The `except requests.exceptions.RequestException` handler of
`run_inference`: starts from `str(e)`, and appends the response body
(JSON if it parses, else raw text) only when
`response := getattr(e, 'response', None)` is truthy. -/
def requestErrorDetail (msg : String) (resp : Option HttpResponse) : String :=
  let errorMsg :=
    match resp with
    | some r =>
      if respTruthy r then
        match r.jsonBody with
        | some j => msg ++ ": " ++ jsonDumps j
        | none => if r.text != "" then msg ++ ": " ++ r.text else msg
      else msg
    | none => msg
  "Ultralytics API error: " ++ errorMsg

/-- An exception caught by the inner `except` of the image-processing
block becomes this HTTP 500. -/
def procError (msg : String) : PipelineError :=
  ⟨500, "Error processing image: " ++ msg⟩

/-- Stand-in text for a `TypeError` / `KeyError` / `AttributeError`
raised while indexing an unexpectedly-shaped response (the exact
interpreter message is external to the repository). -/
def typeErrMsg : String := "unsupported response structure"

/-- Stand-in text for the `Exception` raised when `cv2.imread` returns
`None` (the source interpolates the temporary path into it). -/
def imreadFailMsg : String := "Failed to read image from temporary file"

/-- The dict built by every successful return of `run_inference`. -/
def finishResult (file : UploadFile) (img : Image) : InferenceResult :=
  ⟨file, jpegEncode img, file.filename⟩

def boxKeys : List String := ["x1", "y1", "x2", "y2"]

/-- Final part of the box branch: `int(box["x1"])` etc., then the
rectangle, the `os.unlink`, the encode and the return.  All four keys
are known present. -/
def drawStep (file : UploadFile) (image : Image) (bfs : List (String × Json)) :
    Except PipelineError InferenceResult × List Effect :=
  match pyIntOfJson ((bfs.lookup "x1").getD .null),
        pyIntOfJson ((bfs.lookup "y1").getD .null),
        pyIntOfJson ((bfs.lookup "x2").getD .null),
        pyIntOfJson ((bfs.lookup "y2").getD .null) with
  | some x1, some y1, some x2, some y2 =>
    (.ok (finishResult file (drawRect image x1 y1 x2 y2)),
     [.tempCreate, .tempDelete])
  | _, _, _, _ => (.error (procError typeErrMsg), [.tempCreate])

/-- Handling of `box = result["images"][0]["results"][0].get("box", {})`:
falsy box or a missing key means the pass-through return; a `TypeError`
while testing `k in box` or converting a coordinate is caught as a
processing error.  The temporary file is unlinked only on the return
paths. -/
def boxStep (file : UploadFile) (image : Image) (box : Json) :
    Except PipelineError InferenceResult × List Effect :=
  if pyTruthy box then
    match containsAllKeys box boxKeys with
    | none => (.error (procError typeErrMsg), [.tempCreate])
    | some false => (.ok (finishResult file image), [.tempCreate, .tempDelete])
    | some true =>
      match box with
      | .obj bfs => drawStep file image bfs
      | _ => (.error (procError typeErrMsg), [.tempCreate])
  else
    (.ok (finishResult file image), [.tempCreate, .tempDelete])

/-- Handling of `result["images"][0].get("results")`: a falsy or absent
list means the pass-through return (with `os.unlink` before it); a
truthy non-list raises while being indexed. -/
def resultsStep (file : UploadFile) (image : Image) (ifs : List (String × Json)) :
    Except PipelineError InferenceResult × List Effect :=
  match ifs.lookup "results" with
  | some (.arr (r0 :: _)) =>
    match r0 with
    | .obj r0fs => boxStep file image ((r0fs.lookup "box").getD (.obj []))
    | _ => (.error (procError typeErrMsg), [.tempCreate])
  | some v =>
    if pyTruthy v then (.error (procError typeErrMsg), [.tempCreate])
    else (.ok (finishResult file image), [.tempCreate, .tempDelete])
  | none => (.ok (finishResult file image), [.tempCreate, .tempDelete])

/-- The image-processing block of `run_inference` (the `try:` starting
at the `tempfile.NamedTemporaryFile` line): writes the upload to a
temporary file (`Effect.tempCreate`), decodes it, walks the parsed
response, and re-encodes.  A falsy or absent `images` entry raises
`"No images found in the result"`; on the raising paths no
`Effect.tempDelete` is emitted, mirroring the absence of `os.unlink`
there. -/
def annotate (file : UploadFile) (result : Json) :
    Except PipelineError InferenceResult × List Effect :=
  match decodeImage file.content with
  | none => (.error (procError imreadFailMsg), [.tempCreate])
  | some image =>
    match result with
    | .obj rfs =>
      match rfs.lookup "images" with
      | some (.arr (first :: _)) =>
        match first with
        | .obj ifs => resultsStep file image ifs
        | _ => (.error (procError typeErrMsg), [.tempCreate])
      | some v =>
        if pyTruthy v then (.error (procError typeErrMsg), [.tempCreate])
        else (.error (procError "No images found in the result"), [.tempCreate])
      | none => (.error (procError "No images found in the result"), [.tempCreate])
    | _ => (.error (procError typeErrMsg), [.tempCreate])

/-- Truthiness of `all([api_key, model_url, inference_url])`. -/
def inferenceConfigured (env : Env) : Bool :=
  present env.ultralyticsApiKey && present env.ultralyticsModelUrl &&
    present env.ultralyticsInferenceUrl

/-- The multipart request `run_inference` sends: form data
`model=<ULTRALYTICS_MODEL_URL>`, `imgsz=640`, `conf=0.25`, `iou=0.45`,
header `x-api-key=<ULTRALYTICS_API_KEY>`, file part
`(filename, bytes, content type)`. -/
def mkInferenceRequest (env : Env) (file : UploadFile) : InferenceRequest :=
  { url := env.ultralyticsInferenceUrl.getD ""
    apiKeyHeader := env.ultralyticsApiKey.getD ""
    modelField := env.ultralyticsModelUrl.getD ""
    imgszField := 640
    confField := ⟨25, 100⟩
    iouField := ⟨45, 100⟩
    fileName := file.filename
    fileBytes := file.content
    contentType := file.contentType }

/-- `run_inference` from `app/dependencies.py`, as a function of the
environment, the uploaded file, and the network's answer to the (at
most one) outbound request.  Returns the outcome plus the ordered side
effects. -/
def run_inference (env : Env) (file : UploadFile)
    (net : InferenceRequest → NetOutcome) :
    Except PipelineError InferenceResult × List Effect :=
  if inferenceConfigured env then
    if file.content.isEmpty then
      (.error ⟨400, "Empty file provided"⟩, [])
    else
      match net (mkInferenceRequest env file) with
      | .transportFailure msg =>
        (.error ⟨500, requestErrorDetail msg none⟩,
         [.netPost (mkInferenceRequest env file)])
      | .gotResponse r =>
        if 400 ≤ r.status && r.status < 600 then
          (.error ⟨500, requestErrorDetail
              (httpErrorString r.status r.reason (env.ultralyticsInferenceUrl.getD ""))
              (some r)⟩,
           [.netPost (mkInferenceRequest env file)])
        else
          match r.jsonBody with
          | none =>
            (.error ⟨500, "Error parsing API response: invalid JSON body"⟩,
             [.netPost (mkInferenceRequest env file)])
          | some result =>
            ((annotate file result).1,
             .netPost (mkInferenceRequest env file) :: (annotate file result).2)
  else
    (.error ⟨500, "Missing required environment variables"⟩, [])

/-- The storage client: url and key with which `create_client` was
called. -/
structure SupabaseClientModel where
  url : String
  key : String
deriving DecidableEq, Repr

/-- `SupabaseClient` from `app/dependencies.py`.  The external
`create_client` raises when its url or key argument is falsy (the
exact message is the library's); that exception is wrapped into the
HTTP 500 built in the source. -/
def SupabaseClient (env : Env) : Except PipelineError SupabaseClientModel :=
  if present env.supabaseUrl && present env.supabaseKey then
    .ok ⟨env.supabaseUrl.getD "", env.supabaseKey.getD ""⟩
  else
    .error ⟨500, "Error loading Supabase client: invalid client arguments"⟩

/-- The deterministic object key `inference/output_<filename>`. -/
def storagePath (filename : String) : String := "inference/output_" ++ filename

/-- The `file_options` passed to `upload`. -/
def uploadFileOptions : List (String × String) :=
  [("cache-control", "3600"), ("upsert", "true")]

/-- Modelled `get_public_url`: the deterministic public URL the storage
service derives from the client url, bucket and path. -/
def publicUrlOf (client : SupabaseClientModel) (bucket path : String) : String :=
  client.url ++ "/storage/v1/object/public/" ++ bucket ++ "/" ++ path

/-- `save_to_supabase_storage` from `app/dependencies.py`, given an
already-resolved inference result and client.  `uploadFailure` is the
storage provider's error message when the upload fails. -/
def save_to_supabase_storage (env : Env) (inference_result : InferenceResult)
    (client : SupabaseClientModel) (uploadFailure : Option String) :
    Except PipelineError String × List Effect :=
  if present env.supabaseStorageBucket then
    let bucket := env.supabaseStorageBucket.getD ""
    let path := storagePath inference_result.filename
    match uploadFailure with
    | some m =>
      (.error ⟨500, "Error saving image to Supabase: " ++ m⟩,
       [.storageUpload bucket path inference_result.image_bytes uploadFileOptions])
    | none =>
      (.ok (publicUrlOf client bucket path),
       [.storageUpload bucket path inference_result.image_bytes uploadFileOptions])
  else
    (.error ⟨500, "SUPABASE_STORAGE_BUCKET environment variable not set"⟩, [])

/-- Full dependency resolution of `save_to_supabase_storage` as its
signature declares it (`run_inference`, then `SupabaseClient`, then the
body).  No route in the source references it. -/
def savePipeline (env : Env) (file : UploadFile)
    (net : InferenceRequest → NetOutcome) (uploadFailure : Option String) :
    Except PipelineError String × List Effect :=
  match run_inference env file net with
  | (.error e, tr) => (.error e, tr)
  | (.ok d, tr) =>
    match SupabaseClient env with
    | .error e => (.error e, tr)
    | .ok client =>
      let out := save_to_supabase_storage env d client uploadFailure
      (out.1, tr ++ out.2)

/-- Value placed under the `resultsUrl` response key. -/
inductive ResultsValue where
  | url (s : String)
  | inferenceDict (d : InferenceResult)
deriving DecidableEq, Repr

/-- The `POST /inference/` route as wired in
`app/routers/inference.py`: its only dependency is `run_inference`,
whose dict result becomes the `resultsUrl` value of the response. -/
def postInference (env : Env) (file : UploadFile)
    (net : InferenceRequest → NetOutcome) :
    Except PipelineError ResultsValue × List Effect :=
  match run_inference env file net with
  | (.error e, tr) => (.error e, tr)
  | (.ok d, tr) => (.ok (.inferenceDict d), tr)

/-- Modelled from the spec: the endpoint the specification describes,
whose success value is the Storage Stage's public-URL string (the
route's dependency being the full `save_to_supabase_storage` chain).
Stated for comparison with `postInference`. -/
def postInferenceSpec (env : Env) (file : UploadFile)
    (net : InferenceRequest → NetOutcome) (uploadFailure : Option String) :
    Except PipelineError ResultsValue × List Effect :=
  match savePipeline env file net uploadFailure with
  | (.error e, tr) => (.error e, tr)
  | (.ok u, tr) => (.ok (.url u), tr)

instance {ε α : Type _} [DecidableEq ε] [DecidableEq α] :
    DecidableEq (Except ε α) := fun a b =>
  match a, b with
  | .ok x, .ok y =>
    if h : x = y then .isTrue (by rw [h]) else .isFalse (fun hh => h (Except.ok.inj hh))
  | .error x, .error y =>
    if h : x = y then .isTrue (by rw [h]) else .isFalse (fun hh => h (Except.error.inj hh))
  | .ok _, .error _ => .isFalse (fun hh => Except.noConfusion hh)
  | .error _, .ok _ => .isFalse (fun hh => Except.noConfusion hh)

/-! Concrete fixtures used by witnesses and counterexamples. -/

/-- An environment with all six variables set. -/
def envFull : Env :=
  ⟨some "key123", some "hub/model", some "api/infer",
   some "https://proj.supabase.co", some "sbkey", some "images"⟩

/-- A decodable 2-by-2 upload. -/
def dogBytes : Bytes := [2, 2, 7, 7, 7, 7]

def dogFile : UploadFile := ⟨"dog.jpg", "image/jpeg", dogBytes⟩

/-- The raster `dogBytes` decodes to. -/
def dogImage : Image :=
  ⟨[[pixelOfCode 7, pixelOfCode 7], [pixelOfCode 7, pixelOfCode 7]]⟩

/-- A well-formed detection response with one complete box. -/
def boxResponseJson : Json :=
  .obj [("images", .arr [.obj [("results", .arr [.obj [("box", .obj
    [("x1", .num 10 1), ("y1", .num 10 1),
     ("x2", .num 100 1), ("y2", .num 90 1)])]])]])]

/-- A network that answers 200 with body `j`. -/
def okNet (j : Json) : InferenceRequest → NetOutcome :=
  fun _ => .gotResponse ⟨200, "OK", "raw", some j⟩

/-- A network that answers 503 with a JSON error body. -/
def failNet503 : InferenceRequest → NetOutcome :=
  fun _ => .gotResponse
    ⟨503, "Service Unavailable", "upstream busy", some (.obj [("detail", .str "busy")])⟩

/-! Shape lemmas for the drawing model. -/

lemma length_mapWithIndex {α β : Type _} (l : List α) :
    ∀ f : Nat → α → β, (mapWithIndex f l).length = l.length := by
  induction l with
  | nil => intro f; rfl
  | cons a as ih => intro f; simp [mapWithIndex, ih]

lemma drawRect_height (img : Image) (x1 y1 x2 y2 : Int) :
    (drawRect img x1 y1 x2 y2).height = img.height := by
  simp [drawRect, Image.height, length_mapWithIndex]

lemma drawRect_width (img : Image) (x1 y1 x2 y2 : Int) :
    (drawRect img x1 y1 x2 y2).width = img.width := by
  obtain ⟨data⟩ := img
  cases data with
  | nil => rfl
  | cons row rows =>
    simp [drawRect, Image.width, mapWithIndex, length_mapWithIndex]

lemma jpegHeight_encode (img : Image) : jpegHeight (jpegEncode img) = img.height := rfl

lemma jpegWidth_encode (img : Image) : jpegWidth (jpegEncode img) = img.width := rfl

/-! Lookup lemmas linking `List.lookup` to the membership tests Python
performs. -/

lemma any_key_of_lookup {l : List (String × Json)} {k : String} {v : Json}
    (h : l.lookup k = some v) : (l.any fun p => p.1 == k) = true := by
  induction l with
  | nil => simp [List.lookup] at h
  | cons p ps ih =>
    rw [List.lookup] at h
    cases hpk : (k == p.1) with
    | true =>
      have hk : k = p.1 := by simpa using hpk
      simp only [List.any_cons, Bool.or_eq_true]
      exact Or.inl (by simp [hk])
    | false =>
      rw [hpk] at h
      simp only [List.any_cons, Bool.or_eq_true]
      exact Or.inr (ih h)

lemma obj_truthy_of_lookup {l : List (String × Json)} {k : String} {v : Json}
    (h : l.lookup k = some v) : pyTruthy (.obj l) = true := by
  cases l with
  | nil => simp [List.lookup] at h
  | cons p ps => simp [pyTruthy]

lemma containsAll_of_lookups {bfs : List (String × Json)} {v1 v2 v3 v4 : Json}
    (h1 : bfs.lookup "x1" = some v1) (h2 : bfs.lookup "y1" = some v2)
    (h3 : bfs.lookup "x2" = some v3) (h4 : bfs.lookup "y2" = some v4) :
    containsAllKeys (.obj bfs) boxKeys = some true := by
  simp [containsAllKeys, boxKeys, pyContains,
    any_key_of_lookup h1, any_key_of_lookup h2,
    any_key_of_lookup h3, any_key_of_lookup h4]

/-! Path lemmas: how each branch of the pipeline evaluates. -/

lemma drawStep_eq {bfs : List (String × Json)} {n1 n2 n3 n4 : Int} {d1 d2 d3 d4 : Nat}
    (file : UploadFile) (image : Image)
    (h1 : bfs.lookup "x1" = some (.num n1 d1)) (h2 : bfs.lookup "y1" = some (.num n2 d2))
    (h3 : bfs.lookup "x2" = some (.num n3 d3)) (h4 : bfs.lookup "y2" = some (.num n4 d4)) :
    drawStep file image bfs =
      (.ok (finishResult file (drawRect image
          (Int.tdiv n1 (Int.ofNat d1)) (Int.tdiv n2 (Int.ofNat d2))
          (Int.tdiv n3 (Int.ofNat d3)) (Int.tdiv n4 (Int.ofNat d4)))),
       [.tempCreate, .tempDelete]) := by
  simp [drawStep, h1, h2, h3, h4, pyIntOfJson]

lemma boxStep_obj_eq {bfs : List (String × Json)} {v1 v2 v3 v4 : Json}
    (file : UploadFile) (image : Image)
    (h1 : bfs.lookup "x1" = some v1) (h2 : bfs.lookup "y1" = some v2)
    (h3 : bfs.lookup "x2" = some v3) (h4 : bfs.lookup "y2" = some v4) :
    boxStep file image (.obj bfs) = drawStep file image bfs := by
  simp [boxStep, obj_truthy_of_lookup h1, containsAll_of_lookups h1 h2 h3 h4]

lemma resultsStep_box_eq {ifs r0fs : List (String × Json)} {restR : List Json} {bv : Json}
    (file : UploadFile) (image : Image)
    (hres : ifs.lookup "results" = some (.arr (.obj r0fs :: restR)))
    (hbox : r0fs.lookup "box" = some bv) :
    resultsStep file image ifs = boxStep file image bv := by
  simp [resultsStep, hres, hbox]

lemma annotate_images_eq {rfs ifs : List (String × Json)} {restI : List Json}
    {file : UploadFile} {img : Image}
    (hdec : decodeImage file.content = some img)
    (himg : rfs.lookup "images" = some (.arr (.obj ifs :: restI))) :
    annotate file (.obj rfs) = resultsStep file img ifs := by
  simp [annotate, hdec, himg]

lemma run_inference_ok_net {env : Env} {file : UploadFile}
    {net : InferenceRequest → NetOutcome} {resp : HttpResponse} {j : Json}
    (hcfg : inferenceConfigured env = true)
    (hne : file.content.isEmpty = false)
    (hnet : net (mkInferenceRequest env file) = .gotResponse resp)
    (hst : resp.status < 400)
    (hjson : resp.jsonBody = some j) :
    run_inference env file net =
      ((annotate file j).1, .netPost (mkInferenceRequest env file) :: (annotate file j).2) := by
  simp [run_inference, hcfg, hne, hnet, hjson, Nat.not_le.mpr hst]

/-! Trace-shape lemmas: the image-processing block only ever emits
`tempCreate`, optionally followed by `tempDelete`. -/

lemma drawStep_trace (file : UploadFile) (image : Image) (bfs : List (String × Json)) :
    (drawStep file image bfs).2 = [.tempCreate] ∨
      (drawStep file image bfs).2 = [.tempCreate, .tempDelete] := by
  unfold drawStep
  split <;> simp

lemma boxStep_trace (file : UploadFile) (image : Image) (b : Json) :
    (boxStep file image b).2 = [.tempCreate] ∨
      (boxStep file image b).2 = [.tempCreate, .tempDelete] := by
  unfold boxStep
  split
  · split
    · simp
    · simp
    · split
      · exact drawStep_trace _ _ _
      · simp
  · simp

lemma resultsStep_trace (file : UploadFile) (image : Image) (ifs : List (String × Json)) :
    (resultsStep file image ifs).2 = [.tempCreate] ∨
      (resultsStep file image ifs).2 = [.tempCreate, .tempDelete] := by
  unfold resultsStep
  split
  · split
    · exact boxStep_trace _ _ _
    · simp
  · split <;> simp
  · simp

lemma annotate_trace (file : UploadFile) (j : Json) :
    (annotate file j).2 = [.tempCreate] ∨
      (annotate file j).2 = [.tempCreate, .tempDelete] := by
  unfold annotate
  split
  · simp
  · split
    · split
      · split
        · exact resultsStep_trace _ _ _
        · simp
      · split <;> simp
      · simp
    · simp

/-! Success-shape lemmas: every successful return of the processing
block is the fixed three-field dict over the decoded image, either
untouched or with the rectangle drawn on it. -/

lemma drawStep_ok {file : UploadFile} {image : Image} {bfs : List (String × Json)}
    {res : InferenceResult} {tr : List Effect}
    (h : drawStep file image bfs = (.ok res, tr)) :
    ∃ a b c d, res = finishResult file (drawRect image a b c d) := by
  unfold drawStep at h
  split at h
  · rename_i x1 y1 x2 y2 hq1 hq2 hq3 hq4
    simp only [Prod.mk.injEq] at h
    exact ⟨x1, y1, x2, y2, (Except.ok.inj h.1).symm⟩
  · simp at h

lemma boxStep_ok {file : UploadFile} {image : Image} {b : Json}
    {res : InferenceResult} {tr : List Effect}
    (h : boxStep file image b = (.ok res, tr)) :
    res = finishResult file image ∨
      ∃ a b' c d, res = finishResult file (drawRect image a b' c d) := by
  unfold boxStep at h
  split at h
  · split at h
    · simp at h
    · simp only [Prod.mk.injEq] at h
      exact Or.inl (Except.ok.inj h.1).symm
    · split at h
      · exact Or.inr (drawStep_ok h)
      · simp at h
  · simp only [Prod.mk.injEq] at h
    exact Or.inl (Except.ok.inj h.1).symm

lemma resultsStep_ok {file : UploadFile} {image : Image} {ifs : List (String × Json)}
    {res : InferenceResult} {tr : List Effect}
    (h : resultsStep file image ifs = (.ok res, tr)) :
    res = finishResult file image ∨
      ∃ a b c d, res = finishResult file (drawRect image a b c d) := by
  unfold resultsStep at h
  split at h
  · split at h
    · exact boxStep_ok h
    · simp at h
  · split at h
    · simp at h
    · simp only [Prod.mk.injEq] at h
      exact Or.inl (Except.ok.inj h.1).symm
  · simp only [Prod.mk.injEq] at h
    exact Or.inl (Except.ok.inj h.1).symm

lemma annotate_ok {file : UploadFile} {j : Json}
    {res : InferenceResult} {tr : List Effect}
    (h : annotate file j = (.ok res, tr)) :
    ∃ img, decodeImage file.content = some img ∧
      (res = finishResult file img ∨
        ∃ a b c d, res = finishResult file (drawRect img a b c d)) := by
  unfold annotate at h
  split at h
  · simp at h
  · rename_i img hdec
    refine ⟨img, hdec, ?_⟩
    split at h
    · split at h
      · split at h
        · exact resultsStep_ok h
        · simp at h
      · split at h <;> simp at h
      · simp at h
    · simp at h

/-- A file whose bytes `cv2.imread` cannot decode. -/
def badFile : UploadFile := ⟨"bad.jpg", "image/jpeg", [1, 2, 3]⟩

/-- An empty upload. -/
def emptyFile : UploadFile := ⟨"empty.jpg", "image/jpeg", []⟩

/-- C2, counterexample: a 200 response whose JSON body has no `images`
field makes `run_inference` fail with HTTP 500 (the raised
`"No images found in the result"`), not return the original image
re-encoded; the temporary file is also left behind (no `tempDelete`). -/
theorem missing_images_fails_not_passthrough :
    run_inference envFull dogFile (okNet (.obj [])) =
      (.error ⟨500, "Error processing image: No images found in the result"⟩,
       [.netPost (mkInferenceRequest envFull dogFile), .tempCreate]) := by
  decide

/-- C2 (amended): when the response has a nonempty `images` list whose
first entry is an object, and either its `results` list is missing or
falsy (e.g. empty), or the first result's `box` object is missing,
falsy, or lacks one of the keys x1, y1, x2, y2, the processing block
returns the original decoded image re-encoded, with no rectangle drawn
and no failure (a response whose `images` field is missing or empty
instead fails, see the counterexample). -/
theorem annotate_passthrough_on_missing_results_or_box
    (file : UploadFile) (img : Image) (rfs ifs : List (String × Json)) (restI : List Json)
    (hdec : decodeImage file.content = some img)
    (himg : rfs.lookup "images" = some (.arr (.obj ifs :: restI)))
    (hcase :
      ifs.lookup "results" = none ∨
      (∃ v, ifs.lookup "results" = some v ∧ pyTruthy v = false) ∨
      (∃ r0fs restR, ifs.lookup "results" = some (.arr (.obj r0fs :: restR)) ∧
        (pyTruthy ((r0fs.lookup "box").getD (.obj [])) = false ∨
         containsAllKeys ((r0fs.lookup "box").getD (.obj [])) boxKeys = some false))) :
    annotate file (.obj rfs) =
      (.ok (finishResult file img), [.tempCreate, .tempDelete]) := by
  rw [annotate_images_eq hdec himg]
  rcases hcase with hnone | ⟨v, hv, hfalse⟩ | ⟨r0fs, restR, hres, hbox⟩
  · simp [resultsStep, hnone]
  · cases v with
    | arr elems =>
      cases elems with
      | nil => simp [resultsStep, hv, hfalse]
      | cons e es => simp [pyTruthy] at hfalse
    | null => simp [resultsStep, hv, pyTruthy]
    | bool b => simp [resultsStep, hv, hfalse]
    | num n d => simp [resultsStep, hv, hfalse]
    | str s => simp [resultsStep, hv, hfalse]
    | obj fs => simp [resultsStep, hv, hfalse]
  · have hstep : resultsStep file img ifs =
        boxStep file img ((r0fs.lookup "box").getD (.obj [])) := by
      simp [resultsStep, hres]
    rw [hstep]
    rcases hbox with hfalsy | hmissing
    · simp [boxStep, hfalsy]
    · by_cases ht : pyTruthy ((r0fs.lookup "box").getD (.obj [])) = true
      · simp [boxStep, ht, hmissing]
      · have hf : pyTruthy ((r0fs.lookup "box").getD (.obj [])) = false := by
          cases hx : pyTruthy ((r0fs.lookup "box").getD (.obj []))
          · rfl
          · exact absurd hx ht
        simp [boxStep, hf]

/-- C2, witness for the amended theorem at a concrete empty-results
response. -/
theorem annotate_passthrough_witness :
    annotate dogFile (.obj [("images", .arr [.obj [("results", .arr [])]])]) =
      (.ok (finishResult dogFile dogImage), [.tempCreate, .tempDelete]) :=
  annotate_passthrough_on_missing_results_or_box dogFile dogImage
    [("images", .arr [.obj [("results", .arr [])]])] [("results", .arr [])] []
    rfl rfl
    (Or.inr (Or.inl ⟨.arr [], rfl, by decide⟩))

/-- C3: on the decode-failure exit path of the processing block the
temporary file is created but never deleted — the trace ends after
`tempCreate` with no `tempDelete` — contradicting the claim that every
exit path releases it. -/
theorem temp_file_leaked_on_decode_failure :
    run_inference envFull badFile (okNet boxResponseJson) =
      (.error ⟨500, "Error processing image: Failed to read image from temporary file"⟩,
       [.netPost (mkInferenceRequest envFull badFile), .tempCreate]) ∧
    Effect.tempDelete ∉
      [Effect.netPost (mkInferenceRequest envFull badFile), Effect.tempCreate] :=
  ⟨by decide, by decide⟩

/-- C6: with the inference configuration present, an empty upload
buffer fails with HTTP 400 `"Empty file provided"` and the side-effect
trace is empty — in particular the outbound network call is never made. -/
theorem empty_upload_validation_error_no_network
    (env : Env) (file : UploadFile) (net : InferenceRequest → NetOutcome)
    (hcfg : inferenceConfigured env = true) (hempty : file.content = []) :
    run_inference env file net = (.error ⟨400, "Empty file provided"⟩, []) := by
  simp [run_inference, hcfg, hempty]

/-- C6, witness at a concrete empty upload. -/
theorem empty_upload_witness :
    run_inference envFull emptyFile (okNet Json.null) =
      (.error ⟨400, "Empty file provided"⟩, []) :=
  empty_upload_validation_error_no_network envFull emptyFile (okNet Json.null)
    (by decide) rfl

/-- C7: with the bucket configured, every upload writes to the
deterministic key `inference/output_<filename>` with upsert semantics
and a 3600-second cache-control directive, so two results with the
same filename write to the same key. -/
theorem storage_upload_key_and_options
    (env : Env) (r : InferenceResult) (client : SupabaseClientModel)
    (upl : Option String) (hb : present env.supabaseStorageBucket = true) :
    ((save_to_supabase_storage env r client upl).2 =
      [.storageUpload (env.supabaseStorageBucket.getD "")
        ("inference/output_" ++ r.filename) r.image_bytes
        [("cache-control", "3600"), ("upsert", "true")]]) ∧
    (∀ r' : InferenceResult, r'.filename = r.filename →
      storagePath r'.filename = storagePath r.filename) := by
  constructor
  · unfold save_to_supabase_storage
    rw [hb]
    cases upl <;> simp [storagePath, uploadFileOptions]
  · intro r' h
    rw [h]

/-- C7, witness at a concrete result. -/
theorem storage_upload_witness :
    ((save_to_supabase_storage envFull ⟨dogFile, dogBytes, "dog.jpg"⟩
        ⟨"https://proj.supabase.co", "sbkey"⟩ none).2 =
      [.storageUpload "images" "inference/output_dog.jpg" dogBytes
        [("cache-control", "3600"), ("upsert", "true")]]) ∧
    (∀ r' : InferenceResult, r'.filename = "dog.jpg" →
      storagePath r'.filename = storagePath "dog.jpg") :=
  storage_upload_key_and_options envFull ⟨dogFile, dogBytes, "dog.jpg"⟩
    ⟨"https://proj.supabase.co", "sbkey"⟩ none (by decide)

/-- C1: on a fully successful request the route hands back the
`run_inference` dict (three keys, raw annotated bytes) as the
`resultsUrl` value and never invokes the storage stage (no upload
effect), while the endpoint the spec describes (`postInferenceSpec`,
routed through `save_to_supabase_storage`) would return the public URL
string. -/
theorem postInference_returns_dict_not_storage_url :
    postInference envFull dogFile (okNet boxResponseJson) =
      (.ok (.inferenceDict ⟨dogFile, dogBytes, "dog.jpg"⟩),
       [.netPost (mkInferenceRequest envFull dogFile), .tempCreate, .tempDelete]) ∧
    ((postInference envFull dogFile (okNet boxResponseJson)).2.all
      fun e => !e.isStorageUpload) = true ∧
    postInferenceSpec envFull dogFile (okNet boxResponseJson) none =
      (.ok (.url
          "https://proj.supabase.co/storage/v1/object/public/images/inference/output_dog.jpg"),
       [.netPost (mkInferenceRequest envFull dogFile), .tempCreate, .tempDelete,
        .storageUpload "images" "inference/output_dog.jpg" dogBytes
          [("cache-control", "3600"), ("upsert", "true")]]) :=
  ⟨by decide, by decide, by decide⟩

/-- The side-effect trace of `run_inference` never contains a storage
upload: uploads happen only in `save_to_supabase_storage`. -/
lemma run_inference_no_upload (env : Env) (file : UploadFile)
    (net : InferenceRequest → NetOutcome) :
    ((run_inference env file net).2.all fun e => !e.isStorageUpload) = true := by
  unfold run_inference
  split
  · split
    · simp
    · split
      · simp [Effect.isStorageUpload]
      · split
        · simp [Effect.isStorageUpload]
        · split
          · simp [Effect.isStorageUpload]
          · rename_i j hj
            rcases annotate_trace file j with h | h <;>
              simp [h, Effect.isStorageUpload]
  · simp

/-- C4: a stage missing its configuration fails with the HTTP 500
built in the source before performing any of its calls: missing
inference configuration makes `run_inference` fail with an empty
trace (no outbound request); a missing bucket makes
`save_to_supabase_storage` fail with an empty trace (no upload); a
missing storage url or key makes `SupabaseClient` fail, and the
resolved pipeline then performs no upload at all. -/
theorem missing_config_fails_before_network :
    (∀ (env : Env) (file : UploadFile) (net : InferenceRequest → NetOutcome),
      inferenceConfigured env = false →
      run_inference env file net =
        (.error ⟨500, "Missing required environment variables"⟩, [])) ∧
    (∀ (env : Env) (r : InferenceResult) (client : SupabaseClientModel)
        (upl : Option String),
      present env.supabaseStorageBucket = false →
      save_to_supabase_storage env r client upl =
        (.error ⟨500, "SUPABASE_STORAGE_BUCKET environment variable not set"⟩, [])) ∧
    (∀ env : Env, (present env.supabaseUrl && present env.supabaseKey) = false →
      SupabaseClient env =
        .error ⟨500, "Error loading Supabase client: invalid client arguments"⟩ ∧
      ∀ (file : UploadFile) (net : InferenceRequest → NetOutcome) (upl : Option String),
        ((savePipeline env file net upl).2.all fun e => !e.isStorageUpload) = true) := by
  refine ⟨?_, ?_, ?_⟩
  · intro env file net hcfg
    simp [run_inference, hcfg]
  · intro env r client upl hb
    simp [save_to_supabase_storage, hb]
  · intro env hmiss
    have hsc : SupabaseClient env =
        .error ⟨500, "Error loading Supabase client: invalid client arguments"⟩ := by
      simp [SupabaseClient, hmiss]
    refine ⟨hsc, ?_⟩
    intro file net upl
    unfold savePipeline
    cases hrun : run_inference env file net with
    | mk a tr =>
      have hall := run_inference_no_upload env file net
      rw [hrun] at hall
      cases a with
      | error e => simpa using hall
      | ok d => rw [hsc]; simpa using hall

/-- C4, witness: an environment with nothing set trips all three
configuration failures. -/
theorem missing_config_witness :
    run_inference ⟨none, none, none, none, none, none⟩ dogFile (okNet Json.null) =
      (.error ⟨500, "Missing required environment variables"⟩, []) ∧
    save_to_supabase_storage ⟨none, none, none, none, none, none⟩
        ⟨dogFile, dogBytes, "dog.jpg"⟩ ⟨"u", "k"⟩ none =
      (.error ⟨500, "SUPABASE_STORAGE_BUCKET environment variable not set"⟩, []) ∧
    SupabaseClient ⟨none, none, none, none, none, none⟩ =
      .error ⟨500, "Error loading Supabase client: invalid client arguments"⟩ :=
  ⟨missing_config_fails_before_network.1 _ dogFile (okNet Json.null) (by decide),
   missing_config_fails_before_network.2.1 _ ⟨dogFile, dogBytes, "dog.jpg"⟩ ⟨"u", "k"⟩ none
     (by decide),
   (missing_config_fails_before_network.2.2 ⟨none, none, none, none, none, none⟩
     (by decide)).1⟩

/-- C5: when the inference API answers 503 the pipeline aborts with an
HTTP 500 and no upload is attempted, and the detail does contain the
upstream status — but, because `requests.Response.__bool__` is falsy
for status 400 and above, the walrus guard skips the body-appending
branch, so neither the response text nor its JSON rendering reaches
the detail, contrary to the claim. -/
theorem upstream_503_detail_lacks_body :
    savePipeline envFull dogFile failNet503 none =
      (.error ⟨500,
          "Ultralytics API error: 503 Server Error: Service Unavailable for url: api/infer"⟩,
       [.netPost (mkInferenceRequest envFull dogFile)]) ∧
    strHasSub
      "Ultralytics API error: 503 Server Error: Service Unavailable for url: api/infer"
      "503" = true ∧
    strHasSub
      "Ultralytics API error: 503 Server Error: Service Unavailable for url: api/infer"
      "upstream busy" = false ∧
    strHasSub
      "Ultralytics API error: 503 Server Error: Service Unavailable for url: api/infer"
      "busy" = false ∧
    ((savePipeline envFull dogFile failNet503 none).2.all
      fun e => !e.isStorageUpload) = true :=
  ⟨by decide, by decide, by decide, by decide, by decide⟩

/-- C8: for a decodable upload and a well-formed detection response
with a complete box, the pipeline succeeds with the rectangle drawn in
place, and the encoded output records exactly the decoded input's
height and width: drawing never resizes. -/
theorem annotated_output_preserves_dimensions
    {env : Env} {file : UploadFile} {net : InferenceRequest → NetOutcome}
    {resp : HttpResponse} {rfs ifs r0fs bfs : List (String × Json)}
    {restI restR : List Json} {img : Image}
    {n1 n2 n3 n4 : Int} {d1 d2 d3 d4 : Nat}
    (hcfg : inferenceConfigured env = true)
    (hne : file.content.isEmpty = false)
    (hnet : net (mkInferenceRequest env file) = .gotResponse resp)
    (hst : resp.status < 400)
    (hjson : resp.jsonBody = some (.obj rfs))
    (hdec : decodeImage file.content = some img)
    (himg : rfs.lookup "images" = some (.arr (.obj ifs :: restI)))
    (hres : ifs.lookup "results" = some (.arr (.obj r0fs :: restR)))
    (hbox : r0fs.lookup "box" = some (.obj bfs))
    (hx1 : bfs.lookup "x1" = some (.num n1 d1)) (hy1 : bfs.lookup "y1" = some (.num n2 d2))
    (hx2 : bfs.lookup "x2" = some (.num n3 d3)) (hy2 : bfs.lookup "y2" = some (.num n4 d4)) :
    (run_inference env file net).1 =
      .ok (finishResult file (drawRect img
        (Int.tdiv n1 (Int.ofNat d1)) (Int.tdiv n2 (Int.ofNat d2))
        (Int.tdiv n3 (Int.ofNat d3)) (Int.tdiv n4 (Int.ofNat d4)))) ∧
    jpegHeight (finishResult file (drawRect img
        (Int.tdiv n1 (Int.ofNat d1)) (Int.tdiv n2 (Int.ofNat d2))
        (Int.tdiv n3 (Int.ofNat d3)) (Int.tdiv n4 (Int.ofNat d4)))).image_bytes =
      img.height ∧
    jpegWidth (finishResult file (drawRect img
        (Int.tdiv n1 (Int.ofNat d1)) (Int.tdiv n2 (Int.ofNat d2))
        (Int.tdiv n3 (Int.ofNat d3)) (Int.tdiv n4 (Int.ofNat d4)))).image_bytes =
      img.width := by
  have hann : annotate file (.obj rfs) =
      (.ok (finishResult file (drawRect img
        (Int.tdiv n1 (Int.ofNat d1)) (Int.tdiv n2 (Int.ofNat d2))
        (Int.tdiv n3 (Int.ofNat d3)) (Int.tdiv n4 (Int.ofNat d4)))),
       [.tempCreate, .tempDelete]) := by
    rw [annotate_images_eq hdec himg, resultsStep_box_eq _ _ hres hbox,
      boxStep_obj_eq _ _ hx1 hy1 hx2 hy2, drawStep_eq _ _ hx1 hy1 hx2 hy2]
  refine ⟨?_, ?_, ?_⟩
  · rw [run_inference_ok_net hcfg hne hnet hst hjson, hann]
  · simp [finishResult, jpegHeight_encode, drawRect_height]
  · simp [finishResult, jpegWidth_encode, drawRect_width]

/-- C8, witness: the end-to-end box scenario on a concrete 2-by-2
image. -/
theorem annotated_output_dimensions_witness :
    (run_inference envFull dogFile (okNet boxResponseJson)).1 =
      .ok (finishResult dogFile (drawRect dogImage
        (Int.tdiv 10 (Int.ofNat 1)) (Int.tdiv 10 (Int.ofNat 1))
        (Int.tdiv 100 (Int.ofNat 1)) (Int.tdiv 90 (Int.ofNat 1)))) ∧
    jpegHeight (finishResult dogFile (drawRect dogImage
        (Int.tdiv 10 (Int.ofNat 1)) (Int.tdiv 10 (Int.ofNat 1))
        (Int.tdiv 100 (Int.ofNat 1)) (Int.tdiv 90 (Int.ofNat 1)))).image_bytes =
      dogImage.height ∧
    jpegWidth (finishResult dogFile (drawRect dogImage
        (Int.tdiv 10 (Int.ofNat 1)) (Int.tdiv 10 (Int.ofNat 1))
        (Int.tdiv 100 (Int.ofNat 1)) (Int.tdiv 90 (Int.ofNat 1)))).image_bytes =
      dogImage.width :=
  annotated_output_preserves_dimensions (by decide) (by decide) rfl (by decide)
    rfl rfl rfl rfl rfl rfl rfl rfl rfl

/-- C9: whatever the network answers, a configured pipeline with a
nonempty upload performs exactly one outbound request, and that
request carries the header `x-api-key=<configured key>`, the form
fields `model=<configured model>`, `imgsz=640`, `conf=0.25`,
`iou=0.45`, and the uploaded bytes under the original filename and
content type. -/
theorem outbound_request_fields_single_attempt
    (env : Env) (file : UploadFile) (net : InferenceRequest → NetOutcome)
    (hcfg : inferenceConfigured env = true) (hne : file.content.isEmpty = false) :
    ((run_inference env file net).2.filter Effect.isNetPost) =
      [.netPost (mkInferenceRequest env file)] ∧
    (mkInferenceRequest env file).url = env.ultralyticsInferenceUrl.getD "" ∧
    (mkInferenceRequest env file).apiKeyHeader = env.ultralyticsApiKey.getD "" ∧
    (mkInferenceRequest env file).modelField = env.ultralyticsModelUrl.getD "" ∧
    (mkInferenceRequest env file).imgszField = 640 ∧
    (mkInferenceRequest env file).confField = ⟨25, 100⟩ ∧
    (mkInferenceRequest env file).iouField = ⟨45, 100⟩ ∧
    (mkInferenceRequest env file).fileName = file.filename ∧
    (mkInferenceRequest env file).fileBytes = file.content ∧
    (mkInferenceRequest env file).contentType = file.contentType := by
  refine ⟨?_, rfl, rfl, rfl, rfl, rfl, rfl, rfl, rfl, rfl⟩
  cases hnet : net (mkInferenceRequest env file) with
  | transportFailure msg =>
    simp [run_inference, hcfg, hne, hnet, Effect.isNetPost]
  | gotResponse r =>
    by_cases hr : (decide (400 ≤ r.status) && decide (r.status < 600)) = true
    · simp [run_inference, hcfg, hne, hnet, hr, Effect.isNetPost]
    · cases hj : r.jsonBody with
      | none => simp [run_inference, hcfg, hne, hnet, hr, hj, Effect.isNetPost]
      | some j =>
        rcases annotate_trace file j with h | h <;>
          simp [run_inference, hcfg, hne, hnet, hr, hj, h, Effect.isNetPost]

/-- C9, witness at the concrete box scenario. -/
theorem outbound_request_witness :
    ((run_inference envFull dogFile (okNet boxResponseJson)).2.filter
      Effect.isNetPost) = [.netPost (mkInferenceRequest envFull dogFile)] ∧
    (mkInferenceRequest envFull dogFile).url = envFull.ultralyticsInferenceUrl.getD "" ∧
    (mkInferenceRequest envFull dogFile).apiKeyHeader = envFull.ultralyticsApiKey.getD "" ∧
    (mkInferenceRequest envFull dogFile).modelField = envFull.ultralyticsModelUrl.getD "" ∧
    (mkInferenceRequest envFull dogFile).imgszField = 640 ∧
    (mkInferenceRequest envFull dogFile).confField = ⟨25, 100⟩ ∧
    (mkInferenceRequest envFull dogFile).iouField = ⟨45, 100⟩ ∧
    (mkInferenceRequest envFull dogFile).fileName = dogFile.filename ∧
    (mkInferenceRequest envFull dogFile).fileBytes = dogFile.content ∧
    (mkInferenceRequest envFull dogFile).contentType = dogFile.contentType :=
  outbound_request_fields_single_attempt envFull dogFile (okNet boxResponseJson)
    (by decide) (by decide)

/-- C10: every successful `run_inference` value is the three-field dict
whose `original_file` is the upload, whose `filename` is the original
filename unchanged, and whose `image_bytes` is the JPEG encoding of
the decoded image, either untouched or with the rectangle drawn; and
on the complete-box path the rectangle corners are the box numbers
truncated toward zero (`int()`), `Int.tdiv` of numerator by
denominator. -/
theorem success_result_shape_and_truncation :
    (∀ (env : Env) (file : UploadFile) (net : InferenceRequest → NetOutcome)
        (res : InferenceResult) (tr : List Effect),
      run_inference env file net = (.ok res, tr) →
      res.original_file = file ∧ res.filename = file.filename ∧
      ∃ img, decodeImage file.content = some img ∧
        (res.image_bytes = jpegEncode img ∨
          ∃ a b c d, res.image_bytes = jpegEncode (drawRect img a b c d))) ∧
    (∀ (env : Env) (file : UploadFile) (net : InferenceRequest → NetOutcome)
        (resp : HttpResponse) (rfs ifs r0fs bfs : List (String × Json))
        (restI restR : List Json) (img : Image)
        (n1 n2 n3 n4 : Int) (d1 d2 d3 d4 : Nat),
      inferenceConfigured env = true →
      file.content.isEmpty = false →
      net (mkInferenceRequest env file) = .gotResponse resp →
      resp.status < 400 →
      resp.jsonBody = some (.obj rfs) →
      decodeImage file.content = some img →
      rfs.lookup "images" = some (.arr (.obj ifs :: restI)) →
      ifs.lookup "results" = some (.arr (.obj r0fs :: restR)) →
      r0fs.lookup "box" = some (.obj bfs) →
      bfs.lookup "x1" = some (.num n1 d1) →
      bfs.lookup "y1" = some (.num n2 d2) →
      bfs.lookup "x2" = some (.num n3 d3) →
      bfs.lookup "y2" = some (.num n4 d4) →
      (run_inference env file net).1 =
        .ok ⟨file, jpegEncode (drawRect img
          (Int.tdiv n1 (Int.ofNat d1)) (Int.tdiv n2 (Int.ofNat d2))
          (Int.tdiv n3 (Int.ofNat d3)) (Int.tdiv n4 (Int.ofNat d4))),
          file.filename⟩) := by
  constructor
  · intro env file net res tr heq
    unfold run_inference at heq
    split at heq
    · split at heq
      · simp at heq
      · split at heq
        · simp at heq
        · split at heq
          · simp at heq
          · split at heq
            · simp at heq
            · rename_i j hj
              have hfst : (annotate file j).1 = .ok res := by
                have := congrArg Prod.fst heq
                simpa using this
              have hA2 : annotate file j = (Except.ok res, (annotate file j).2) := by
                rw [← hfst]
              obtain ⟨img, hdec, hshape⟩ := annotate_ok hA2
              rcases hshape with h1 | ⟨a', b', c', d', h1⟩
              · exact ⟨by simp [h1, finishResult], by simp [h1, finishResult],
                  img, hdec, Or.inl (by simp [h1, finishResult])⟩
              · exact ⟨by simp [h1, finishResult], by simp [h1, finishResult],
                  img, hdec,
                  Or.inr ⟨a', b', c', d', by simp [h1, finishResult]⟩⟩
    · simp at heq
  · intro env file net resp rfs ifs r0fs bfs restI restR img n1 n2 n3 n4 d1 d2 d3 d4
      hcfg hne hnet hst hjson hdec himg hres hbox hx1 hy1 hx2 hy2
    have hann : annotate file (.obj rfs) =
        (.ok (finishResult file (drawRect img
          (Int.tdiv n1 (Int.ofNat d1)) (Int.tdiv n2 (Int.ofNat d2))
          (Int.tdiv n3 (Int.ofNat d3)) (Int.tdiv n4 (Int.ofNat d4)))),
         [.tempCreate, .tempDelete]) := by
      rw [annotate_images_eq hdec himg, resultsStep_box_eq _ _ hres hbox,
        boxStep_obj_eq _ _ hx1 hy1 hx2 hy2, drawStep_eq _ _ hx1 hy1 hx2 hy2]
    rw [run_inference_ok_net hcfg hne hnet hst hjson, hann]
    rfl

/-- C10, witness: both conjuncts at the concrete box scenario. -/
theorem success_result_shape_witness :
    ((⟨dogFile, dogBytes, "dog.jpg"⟩ : InferenceResult).original_file = dogFile ∧
      (⟨dogFile, dogBytes, "dog.jpg"⟩ : InferenceResult).filename = dogFile.filename ∧
      ∃ img, decodeImage dogFile.content = some img ∧
        ((⟨dogFile, dogBytes, "dog.jpg"⟩ : InferenceResult).image_bytes = jpegEncode img ∨
          ∃ a b c d,
            (⟨dogFile, dogBytes, "dog.jpg"⟩ : InferenceResult).image_bytes =
              jpegEncode (drawRect img a b c d))) ∧
    (run_inference envFull dogFile (okNet boxResponseJson)).1 =
      .ok ⟨dogFile, jpegEncode (drawRect dogImage
        (Int.tdiv 10 (Int.ofNat 1)) (Int.tdiv 10 (Int.ofNat 1))
        (Int.tdiv 100 (Int.ofNat 1)) (Int.tdiv 90 (Int.ofNat 1))),
        dogFile.filename⟩ :=
  ⟨success_result_shape_and_truncation.1 envFull dogFile (okNet boxResponseJson)
      ⟨dogFile, dogBytes, "dog.jpg"⟩
      [.netPost (mkInferenceRequest envFull dogFile), .tempCreate, .tempDelete]
      (by decide),
   success_result_shape_and_truncation.2 envFull dogFile (okNet boxResponseJson)
      ⟨200, "OK", "raw", some boxResponseJson⟩ _ _ _ _ _ _ dogImage
      10 10 100 90 1 1 1 1
      (by decide) (by decide) rfl (by decide) rfl rfl rfl rfl rfl rfl rfl rfl rfl⟩

end Tisese
